import Mathlib

/-!
Shallow embedding of the client-side shopping cart, search overlay and
lightbox logic of the IAmADoctorYes.github.io repository.

Strings are modelled as `List Char`; JavaScript's `toLowerCase` is modelled
per-character by `Char.toLower` (ASCII case folding, which is what the
identifiers and catalog data in this site use).  JavaScript numbers that the
code treats as amounts are modelled by `ℚ` (prices) and `ℤ` (quantities and
stock counts); `undefined`/missing fields are `Option.none`.
-/

namespace Site

/-- Model of `s.toLowerCase()` applied per character. -/
def jsLower (s : List Char) : List Char := s.map Char.toLower

/-- A character matched by the character class `[a-z0-9]` used in
`generateId`'s regex (the input is already lower-cased there). -/
def isAlnumLower (c : Char) : Bool :=
  ('a' ≤ c && c ≤ 'z') || ('0' ≤ c && c ≤ '9')

/-- Worker for `collapseRuns`: the flag records whether we are inside a
maximal run of characters rejected by `[a-z0-9]`, in which case the single
`'-'` for the run has already been emitted. -/
def collapseAux : Bool → List Char → List Char
  | _, [] => []
  | inRun, c :: rest =>
    if isAlnumLower c then c :: collapseAux false rest
    else if inRun then collapseAux true rest
    else '-' :: collapseAux true rest

/-- Model of `.replace(/[^a-z0-9]+/g, '-')`: every maximal run of
characters outside `[a-z0-9]` becomes a single `'-'`. -/
def collapseRuns (s : List Char) : List Char := collapseAux false s

/-- `cart.js generateId(title, variant)`:
`base = title.toLowerCase().replace(/[^a-z0-9]+/g,'-')`, and when the
variant string is truthy (non-empty) the result is
`base + '--' + variant.toLowerCase().replace(/[^a-z0-9]+/g,'-')`. -/
def generateId (title variant : List Char) : List Char :=
  let base := collapseRuns (jsLower title)
  if variant.isEmpty then base
  else base ++ ('-' :: '-' :: collapseRuns (jsLower variant))

/-- Cart line item, `{ id, title, price, image, quantity, variant,
fulfillment }` as pushed by `addItem`. -/
structure LineItem where
  id : List Char
  title : List Char
  price : ℚ
  image : List Char
  quantity : ℤ
  variant : List Char
  fulfillment : List Char
  deriving DecidableEq, Repr

/-- Product record from the shop catalog JSON.  `price` is the result of
`parseFloat(product.price)` (`none` when that yields `NaN`); `stock` is
`some n` exactly when `typeof product.stock === 'number'`; `image` and
`fulfillment` are `none` when the JSON field is absent. -/
structure Product where
  title : List Char
  price : Option ℚ
  image : Option (List Char)
  stock : Option ℤ
  fulfillment : Option (List Char)
  deriving DecidableEq, Repr

/-- A toast notification: message text and the optional `type` argument of
`showToast` (`some "warning"` etc., `none` when called with one argument). -/
structure Toast where
  message : List Char
  kind : Option (List Char)
  deriving DecidableEq, Repr

/-- The cart page state: the module-global `cart` array plus the value
stored under the `'ss-cart'` localStorage key.  `JSON.stringify` is
injective on line-item arrays, so the persisted string is modelled by the
line list it encodes (`none` = nothing was ever written). -/
structure CartState where
  cart : List LineItem
  storage : Option (List LineItem)
  deriving DecidableEq, Repr

/-- The state at the start of the claims' operation sequences: empty cart. -/
def emptyState : CartState := { cart := [], storage := none }

/-- `saveCart()`: serialize the current cart to the storage key. -/
def saveCart (st : CartState) : CartState :=
  { st with storage := some st.cart }

/-- The guard `product.stock && existing.quantity >= product.stock` of
`addItem`: the stock field must be a truthy number (present and non-zero)
and the existing quantity at or above it. -/
def stockGate (stock : Option ℤ) (quantity : ℤ) : Bool :=
  match stock with
  | some s => (s != 0) && (decide (s ≤ quantity))
  | none => false

/-- The warning toast `showToast('Only ' + product.stock + ' in stock',
'warning')`. -/
def stockToast (s : ℤ) : Toast :=
  { message := "Only ".data ++ (toString s).data ++ " in stock".data
    kind := some "warning".data }

/-- The success toast `showToast('Added to cart')`. -/
def addedToast : Toast := { message := "Added to cart".data, kind := none }

/-- The line pushed by `addItem` when no existing line matches:
`{ id, title: product.title + (variant ? ' — ' + variant : ''),
price: parseFloat(product.price) || 0, image: product.image || '',
quantity: 1, variant: variant || '', fulfillment:
product.fulfillment || 'handmade' }`. -/
def newLine (p : Product) (variant : List Char) : LineItem :=
  { id := generateId p.title variant
    title := p.title ++ (if variant.isEmpty then [] else " — ".data ++ variant)
    price := p.price.getD 0
    image := p.image.getD []
    quantity := 1
    variant := variant
    fulfillment := p.fulfillment.getD "handmade".data }

/-- `cart.find(...)` followed by in-place mutation of the found element:
apply `f` to the first element satisfying `p`, keep the rest. -/
def updateFirst (p : α → Bool) (f : α → α) : List α → List α
  | [] => []
  | x :: xs => if p x then f x :: xs else x :: updateFirst p f xs

/-- `cart.js addItem(product, variant)`.  Returns the new page state and
the toasts raised.  On the stock-rejection path the function returns before
`saveCart()`, so the state is untouched; otherwise it increments the first
line with the derived id or appends a new line, then saves. -/
def addItem (p : Product) (variant : List Char) (st : CartState) :
    CartState × List Toast :=
  let id := generateId p.title variant
  match st.cart.find? (fun c => c.id == id) with
  | some existing =>
    if stockGate p.stock existing.quantity then
      (st, [stockToast (p.stock.getD 0)])
    else
      let cart' := updateFirst (fun c => c.id == id)
        (fun c => { c with quantity := c.quantity + 1 }) st.cart
      (saveCart { st with cart := cart' }, [addedToast])
  | none =>
    let cart' := st.cart ++ [newLine p variant]
    (saveCart { st with cart := cart' }, [addedToast])

/-- `cart.js removeItem(id)`: `cart = cart.filter(c => c.id !== id)`,
then save. -/
def removeItem (id : List Char) (st : CartState) : CartState :=
  saveCart { st with cart := st.cart.filter (fun c => !(c.id == id)) }

/-- `cart.js updateQuantity(id, delta)`: if no line matches, return before
saving; otherwise `item.quantity = Math.max(1, item.quantity + delta)`
and save. -/
def updateQuantity (id : List Char) (delta : ℤ) (st : CartState) : CartState :=
  match st.cart.find? (fun c => c.id == id) with
  | none => st
  | some _ =>
    let cart' := updateFirst (fun c => c.id == id)
      (fun c => { c with quantity := max 1 (c.quantity + delta) }) st.cart
    saveCart { st with cart := cart' }

/-- `cart.js clearCart()`: `cart = []`, then save. -/
def clearCart (st : CartState) : CartState :=
  saveCart { st with cart := [] }

/-- `cart.js cartTotal()`: `cart.reduce((sum, item) =>
sum + item.price * item.quantity, 0)`. -/
def cartTotal (st : CartState) : ℚ :=
  st.cart.foldl (fun sum item => sum + item.price * (item.quantity : ℚ)) 0

/-- `cart.js cartCount()`: sum of quantities. -/
def cartCount (st : CartState) : ℤ :=
  st.cart.foldl (fun sum item => sum + item.quantity) 0

/-- One user-driven cart mutation, as exposed on `window.SiteCart`. -/
inductive Op where
  | add (p : Product) (variant : List Char)
  | remove (id : List Char)
  | update (id : List Char) (delta : ℤ)
  | clear
  deriving Repr

/-- Apply one operation to the page state (toasts discarded). -/
def applyOp (op : Op) (st : CartState) : CartState :=
  match op with
  | .add p v => (addItem p v st).1
  | .remove id => removeItem id st
  | .update id d => updateQuantity id d st
  | .clear => clearCart st

/-- Apply a sequence of cart operations in order. -/
def applyOps (ops : List Op) (st : CartState) : CartState :=
  ops.foldl (fun s op => applyOp op s) st

/-! ### `loadCart` and the persisted value (cart.js lines 25-31)

`loadCart` runs `JSON.parse(localStorage.getItem(KEY)) || []` inside a
`try`/`catch` that returns `[]`.  The possible runtime situations for the
stored value are modelled by `StoredCart`; a successfully parsed JSON value
is modelled by the `Json` tree below and the `||` fallback by JavaScript
truthiness. -/

/-- A parsed JSON value (numbers as `ℚ`, adequate for `JSON.parse` output
on this site's data). -/
inductive Json where
  | null
  | bool (b : Bool)
  | num (q : ℚ)
  | str (s : List Char)
  | arr (xs : List Json)
  | obj (fields : List (List Char × Json))

/-- JavaScript truthiness of a parsed JSON value: `null`, `false`, `0` and
`''` are falsy; every array and object (including `[]` and `{}`) is
truthy. -/
def jsTruthy : Json → Bool
  | .null => false
  | .bool b => b
  | .num q => q != 0
  | .str s => !s.isEmpty
  | .arr _ => true
  | .obj _ => true

/-- Is the value a JSON array? -/
def Json.isArr : Json → Bool
  | .arr _ => true
  | _ => false

/-- What the browser holds under the `'ss-cart'` key when `loadCart` runs:
storage throws (`unavailable`), no value stored (`absent`, `getItem`
returns `null`), a string `JSON.parse` rejects (`corrupt`), or a string
that parses to `v` (`value v`). -/
inductive StoredCart where
  | unavailable
  | absent
  | corrupt
  | value (v : Json)

/-- `cart.js loadCart()`: `try { return
JSON.parse(localStorage.getItem(STORAGE_KEY)) || []; } catch (e) { return
[]; }`.  `getItem` returning `null` makes `JSON.parse` see the string
`"null"`, which parses to `null`, which is falsy, so the `|| []` fallback
applies; a thrown exception (unavailable storage or corrupt JSON) lands in
the `catch`.  A successfully parsed truthy value is returned as-is. -/
def loadCart : StoredCart → Json
  | .unavailable => .arr []
  | .corrupt => .arr []
  | .absent => if jsTruthy .null then .null else .arr []
  | .value v => if jsTruthy v then v else .arr []

/-! ### Search overlay filter (the unnamed search script, `filter(query)`) -/

/-- One entry of the fetched search index. -/
structure Entry where
  title : List Char
  slug : List Char
  preview : List Char
  tags : List (List Char)
  category : List Char
  icon : List Char
  date : List Char
  deriving DecidableEq, Repr

/-- `haystack.startsWith-at-the-head` helper for substring containment. -/
def leadMatch : List Char → List Char → Bool
  | _, [] => true
  | [], _ :: _ => false
  | c :: cs, d :: ds => c == d && leadMatch cs ds

/-- Model of JavaScript `haystack.includes(needle)`. -/
def strContains : List Char → List Char → Bool
  | [], n => n.isEmpty
  | c :: cs, n => leadMatch (c :: cs) n || strContains cs n

/-- `tags.join(' ')`. -/
def joinSpace : List (List Char) → List Char
  | [] => []
  | [x] => x
  | x :: xs => x ++ ' ' :: joinSpace xs

/-- The weighted score of `filter(query)`: with `q = query.toLowerCase()`,
title containment scores 10, category 5, joined tags 3, preview 1.  The
entry fields are lower-cased before the containment test, exactly as in
the source. -/
def searchScore (q : List Char) (e : Entry) : ℤ :=
  (if strContains (jsLower e.title) q then 10 else 0)
  + (if strContains (jsLower e.category) q then 5 else 0)
  + (if strContains (jsLower (joinSpace e.tags)) q then 3 else 0)
  + (if strContains (jsLower e.preview) q then 1 else 0)

/-- Insert one scored entry into a list already sorted by descending
score, before the first element whose score it matches or exceeds.  This
realizes ECMAScript's stable `Array.prototype.sort` with comparator
`(a, b) => b.score - a.score`: an earlier element is placed before any
equal-scoring later one. -/
def insertDesc (x : Entry × ℤ) : List (Entry × ℤ) → List (Entry × ℤ)
  | [] => [x]
  | y :: ys => if y.2 ≤ x.2 then x :: y :: ys else y :: insertDesc x ys

/-- Stable sort by strictly descending score (see `insertDesc`). -/
def sortDesc : List (Entry × ℤ) → List (Entry × ℤ)
  | [] => []
  | x :: xs => insertDesc x (sortDesc xs)

/-- The search overlay's `filter(query)` for a non-empty query: score every
entry against `q = query.toLowerCase()`, keep the strictly positive scores,
sort them by descending score (stable), and return the entries. -/
def searchFilter (query : List Char) (entries : List Entry) : List Entry :=
  if query.isEmpty then entries
  else
    let q := jsLower query
    let scored := entries.map (fun e => (e, searchScore q e))
    let positive := scored.filter (fun s => decide (0 < s.2))
    (sortDesc positive).map (fun s => s.1)

/-! ### Lightboxes (shop.js keydown handler; gallery.js keydown handler) -/

/-- The keys the two keydown handlers inspect. -/
inductive Key where
  | escape
  | arrowRight
  | arrowLeft
  | other
  deriving DecidableEq, Repr

/-- Shop lightbox state: `lightbox.hidden`, `currentProductIndex` (an
integer; `indexOf` can make it `-1`) and `currentProductList`.  Products
are irrelevant to navigation, so the list is kept abstract by length. -/
structure ShopLb where
  hidden : Bool
  index : ℤ
  listLen : ℕ
  deriving DecidableEq, Repr

/-- shop.js document keydown handler: ignore keys while hidden; `Escape`
closes; `ArrowRight` sets `index = (index + 1) % length` and `ArrowLeft`
sets `index = (index - 1 + length) % length` when the list is non-empty.
JavaScript `%` is the truncated remainder, `Int.tmod`. -/
def shopKeydown (k : Key) (s : ShopLb) : ShopLb :=
  if s.hidden then s
  else
    match k with
    | .escape => { s with hidden := true }
    | .arrowRight =>
      if s.listLen != 0 then
        { s with index := Int.tmod (s.index + 1) (s.listLen : ℤ) }
      else s
    | .arrowLeft =>
      if s.listLen != 0 then
        { s with index := Int.tmod (s.index - 1 + (s.listLen : ℤ)) (s.listLen : ℤ) }
      else s
    | .other => s

/-- One gallery item as shown in the gallery lightbox. -/
structure GalleryItem where
  src : List Char
  title : List Char
  description : List Char
  deriving DecidableEq, Repr

/-- Gallery lightbox state: hidden flag and the item currently shown (the
gallery lightbox keeps no index and no list). -/
structure GalleryLb where
  hidden : Bool
  shown : Option GalleryItem
  deriving DecidableEq, Repr

/-- gallery.js document keydown handler: `if (e.key === 'Escape' &&
!lightbox.hidden) closeLightbox();` — no other key does anything. -/
def galleryKeydown (k : Key) (s : GalleryLb) : GalleryLb :=
  if k == .escape && !s.hidden then { s with hidden := true } else s

/-! ### Shop card stock gating (shop.js `buildCard`) -/

/-- shop.js `buildCard`: `var soldOut = typeof item.stock === 'number' &&
item.stock <= 0;` — the add-to-cart button is rendered with the `disabled`
attribute and the label `'Sold Out'` exactly when this is true. -/
def soldOut (p : Product) : Bool :=
  match p.stock with
  | some n => decide (n ≤ 0)
  | none => false

/-! ### Helper lemmas -/

lemma foldl_price_sum (l : List LineItem) (init : ℚ) :
    l.foldl (fun s i => s + i.price * (i.quantity : ℚ)) init
      = init + (l.map fun i => i.price * (i.quantity : ℚ)).sum := by
  induction l generalizing init with
  | nil => simp
  | cons x xs ih =>
    simp only [List.foldl_cons, List.map_cons, List.sum_cons, ih]
    ring

lemma mem_updateFirst {p : α → Bool} {f : α → α} {l : List α} {x : α}
    (h : x ∈ updateFirst p f l) : x ∈ l ∨ ∃ y ∈ l, x = f y := by
  induction l with
  | nil => exact absurd h (by simp [updateFirst])
  | cons a as ih =>
    by_cases hp : p a
    · simp only [updateFirst, if_pos hp, List.mem_cons] at h
      rcases h with h | h
      · exact Or.inr ⟨a, List.mem_cons_self a as, h⟩
      · exact Or.inl (List.mem_cons_of_mem a h)
    · simp only [updateFirst, if_neg hp, List.mem_cons] at h
      rcases h with h | h
      · exact Or.inl (h ▸ List.mem_cons_self a as)
      · rcases ih h with h' | ⟨y, hy, hxy⟩
        · exact Or.inl (List.mem_cons_of_mem a h')
        · exact Or.inr ⟨y, List.mem_cons_of_mem a hy, hxy⟩

lemma map_id_updateFirst (p : LineItem → Bool) (f : LineItem → LineItem)
    (hf : ∀ y, (f y).id = y.id) (l : List LineItem) :
    (updateFirst p f l).map LineItem.id = l.map LineItem.id := by
  induction l with
  | nil => rfl
  | cons a as ih =>
    by_cases hp : p a
    · simp [updateFirst, if_pos hp, hf a]
    · simp [updateFirst, if_neg hp, ih]

end Site

namespace Site

lemma insertDesc_perm (x : Entry × ℤ) (l : List (Entry × ℤ)) :
    List.Perm (insertDesc x l) (x :: l) := by
  induction l with
  | nil => exact List.Perm.refl _
  | cons y ys ih =>
    by_cases h : y.2 ≤ x.2
    · simp only [insertDesc, if_pos h]
      exact List.Perm.refl _
    · simp only [insertDesc, if_neg h]
      exact (List.Perm.cons y ih).trans (List.Perm.swap x y ys)

lemma sortDesc_perm (l : List (Entry × ℤ)) : List.Perm (sortDesc l) l := by
  induction l with
  | nil => exact List.Perm.refl _
  | cons x xs ih => exact (insertDesc_perm x (sortDesc xs)).trans (List.Perm.cons x ih)

lemma mem_insertDesc {x y : Entry × ℤ} {l : List (Entry × ℤ)}
    (h : y ∈ insertDesc x l) : y = x ∨ y ∈ l := by
  have := (insertDesc_perm x l).mem_iff.mp h
  simpa using this

lemma pairwise_insertDesc {x : Entry × ℤ} {l : List (Entry × ℤ)}
    (h : l.Pairwise (fun a b => b.2 ≤ a.2)) :
    (insertDesc x l).Pairwise (fun a b => b.2 ≤ a.2) := by
  induction l with
  | nil => simp [insertDesc]
  | cons y ys ih =>
    rcases List.pairwise_cons.mp h with ⟨hy, hys⟩
    by_cases hxy : y.2 ≤ x.2
    · simp only [insertDesc, if_pos hxy]
      refine List.pairwise_cons.mpr ⟨?_, h⟩
      intro z hz
      rcases List.mem_cons.mp hz with rfl | hz'
      · exact hxy
      · exact le_trans (hy z hz') hxy
    · push_neg at hxy
      simp only [insertDesc, if_neg (not_le.mpr hxy)]
      refine List.pairwise_cons.mpr ⟨?_, ih hys⟩
      intro z hz
      rcases mem_insertDesc hz with rfl | hz'
      · exact le_of_lt hxy
      · exact hy z hz'

lemma pairwise_sortDesc (l : List (Entry × ℤ)) :
    (sortDesc l).Pairwise (fun a b => b.2 ≤ a.2) := by
  induction l with
  | nil => simp [sortDesc]
  | cons x xs ih => exact pairwise_insertDesc ih

lemma filter_insertDesc (x : Entry × ℤ) (l : List (Entry × ℤ)) (s : ℤ) :
    (insertDesc x l).filter (fun pr => pr.2 == s)
      = if x.2 == s then x :: l.filter (fun pr => pr.2 == s)
        else l.filter (fun pr => pr.2 == s) := by
  induction l with
  | nil =>
    cases hx : (x.2 == s) <;> simp [insertDesc, List.filter_cons, hx]
  | cons y ys ih =>
    by_cases hxy : y.2 ≤ x.2
    · simp only [insertDesc, if_pos hxy, List.filter_cons]
    · push_neg at hxy
      simp only [insertDesc, if_neg (not_le.mpr hxy), List.filter_cons, ih]
      cases hx : (x.2 == s)
      · cases hy : (y.2 == s) <;> simp [hx, hy]
      · have hxs : x.2 = s := by simpa using hx
        have hy : (y.2 == s) = false := by
          simp only [beq_eq_false_iff_ne, ne_eq]
          omega
        simp [hx, hy]

lemma filter_sortDesc (l : List (Entry × ℤ)) (s : ℤ) :
    (sortDesc l).filter (fun pr => pr.2 == s) = l.filter (fun pr => pr.2 == s) := by
  induction l with
  | nil => rfl
  | cons x xs ih =>
    simp only [sortDesc, filter_insertDesc, ih, List.filter_cons]

lemma filter_map_shape (f : α → β) (p : β → Bool) (l : List α) :
    (l.map f).filter p = (l.filter (fun a => p (f a))).map f := by
  induction l with
  | nil => rfl
  | cons a as ih =>
    simp only [List.map_cons, List.filter_cons]
    cases p (f a) <;> simp [ih]

lemma map_fst_pairs (f : Entry → ℤ) (l : List Entry) :
    ((l.map (fun e => (e, f e))).map (fun pr : Entry × ℤ => pr.1)) = l := by
  induction l with
  | nil => rfl
  | cons a as ih => simp only [List.map_cons, ih]

lemma scored_filter (entries : List Entry) (q : List Char) :
    (entries.map (fun e => (e, searchScore q e))).filter (fun pr => decide (0 < pr.2))
      = (entries.filter (fun e => decide (0 < searchScore q e))).map
          (fun e => (e, searchScore q e)) := by
  induction entries with
  | nil => rfl
  | cons e es ih =>
    simp only [List.map_cons, List.filter_cons]
    cases h : decide (0 < searchScore q e) <;> simp [h, ih]

/-- Two characters are interchangeable for `generateId`: they agree after
lower-casing, or both lower-case to characters outside `[a-z0-9]` (i.e.
the strings differ only in case or in non-alphanumeric characters at that
position). -/
def charEquiv (c d : Char) : Prop :=
  Char.toLower c = Char.toLower d
  ∨ (isAlnumLower (Char.toLower c) = false ∧ isAlnumLower (Char.toLower d) = false)

lemma collapseAux_congr {a b : List Char}
    (h : List.Forall₂
      (fun x y => x = y ∨ (isAlnumLower x = false ∧ isAlnumLower y = false)) a b) :
    ∀ flag, collapseAux flag a = collapseAux flag b := by
  induction h with
  | nil => intro flag; rfl
  | @cons x y as bs hxy hrest ih =>
    intro flag
    rcases hxy with rfl | ⟨hx, hy⟩
    · cases hal : isAlnumLower x
      · simp [collapseAux, hal, ih]
      · simp [collapseAux, hal, ih]
    · simp [collapseAux, hx, hy, ih]

lemma forall₂_jsLower {t1 t2 : List Char} (h : List.Forall₂ charEquiv t1 t2) :
    List.Forall₂
      (fun x y => x = y ∨ (isAlnumLower x = false ∧ isAlnumLower y = false))
      (jsLower t1) (jsLower t2) := by
  induction h with
  | nil => exact .nil
  | cons hxy hrest ih =>
    simp only [jsLower, List.map_cons] at *
    exact .cons hxy ih

lemma generateId_congr {t1 t2 v1 v2 : List Char}
    (ht : List.Forall₂ charEquiv t1 t2) (hv : List.Forall₂ charEquiv v1 v2) :
    generateId t1 v1 = generateId t2 v2 := by
  have hbase := collapseAux_congr (forall₂_jsLower ht) false
  have hvar := collapseAux_congr (forall₂_jsLower hv) false
  have hemp : v1.isEmpty = v2.isEmpty := by
    cases hv <;> rfl
  simp only [generateId, collapseRuns, hemp, hbase, hvar]

/-! ### Claim theorems -/

/-- **C2.** After any sequence of add, remove and updateQuantity (and
clear) operations starting from the empty cart, `cartTotal` returns
exactly the sum over all line items of price times quantity, and the total
of the empty cart is `0`. -/
theorem c2_total_is_sum (ops : List Op) :
    cartTotal (applyOps ops emptyState)
      = ((applyOps ops emptyState).cart.map fun i => i.price * (i.quantity : ℚ)).sum
    ∧ cartTotal emptyState = 0 := by
  refine ⟨?_, rfl⟩
  simpa [cartTotal] using foldl_price_sum (applyOps ops emptyState).cart 0

/-- **C6.** Every mutating cart operation re-establishes the invariant
that the value persisted under the storage key equals the in-memory line
list (the two no-write paths — a stock-rejected add and an
absent-id updateQuantity — leave both sides untouched), and `clearCart`
makes both the in-memory list and the persisted value the empty list. -/
theorem c6_storage_mirrors_cart :
    (∀ op st, st.storage = some st.cart →
      (applyOp op st).storage = some (applyOp op st).cart)
    ∧ (∀ st, (clearCart st).cart = [] ∧ (clearCart st).storage = some []) := by
  constructor
  · intro op st h
    cases op with
    | add p v =>
      simp only [applyOp, addItem]
      cases hf : st.cart.find? (fun c => c.id == generateId p.title v) with
      | none => simp [saveCart]
      | some ex =>
        by_cases hg : stockGate p.stock ex.quantity
        · simp [hg, h]
        · simp [hg, saveCart]
    | remove id => simp [applyOp, removeItem, saveCart]
    | update id d =>
      simp only [applyOp, updateQuantity]
      cases hf : st.cart.find? (fun c => c.id == id) with
      | none => exact h
      | some ex => simp [saveCart]
    | clear => simp [applyOp, clearCart, saveCart]
  · intro st
    exact ⟨rfl, rfl⟩

/-- **C5.** Quantities are at least 1 in every cart state reachable from
the empty cart by the cart operations; `updateQuantity` (any id, any
delta — in particular repeated `-1`) preserves the id list exactly, so it
never deletes a line and, by the invariant, never drives a quantity below
1 on reachable states; `addItem` at most appends line ids, never deletes
one; and `removeItem id` is the per-line operation that does delete the
matching line (`clearCart` bulk-empties the whole cart after an explicit
confirmation, which is not a per-line deletion path). -/
theorem c5_quantity_at_least_one :
    (∀ ops, ∀ it ∈ (applyOps ops emptyState).cart, 1 ≤ it.quantity)
    ∧ (∀ (st : CartState) (id : List Char) (d : ℤ),
        (updateQuantity id d st).cart.map LineItem.id = st.cart.map LineItem.id)
    ∧ (∀ (st : CartState) (p : Product) (v : List Char),
        ∃ rest, ((addItem p v st).1).cart.map LineItem.id
          = st.cart.map LineItem.id ++ rest)
    ∧ (∀ (st : CartState) (id : List Char),
        ∀ c ∈ (removeItem id st).cart, c.id ≠ id) := by
  have hstep : ∀ (op : Op) (st : CartState),
      (∀ it ∈ st.cart, 1 ≤ it.quantity) →
      ∀ it ∈ (applyOp op st).cart, 1 ≤ it.quantity := by
    intro op st h
    cases op with
    | add p v =>
      simp only [applyOp, addItem]
      cases hf : st.cart.find? (fun c => c.id == generateId p.title v) with
      | some ex =>
        by_cases hg : stockGate p.stock ex.quantity
        · simpa [hg] using h
        · simp only [hg, if_false, saveCart]
          intro it hit
          rcases mem_updateFirst hit with hmem | ⟨y, hy, rfl⟩
          · exact h it hmem
          · have := h y hy
            simp only
            omega
      | none =>
        intro it hit
        simp only [saveCart] at hit
        rcases List.mem_append.mp hit with hmem | hmem
        · exact h it hmem
        · rcases List.mem_singleton.mp hmem with rfl
          exact le_refl 1
    | remove id =>
      intro it hit
      simp only [applyOp, removeItem, saveCart] at hit
      exact h it (List.mem_of_mem_filter hit)
    | update id d =>
      simp only [applyOp, updateQuantity]
      cases hf : st.cart.find? (fun c => c.id == id) with
      | none => exact h
      | some ex =>
        intro it hit
        simp only [saveCart] at hit
        rcases mem_updateFirst hit with hmem | ⟨y, hy, rfl⟩
        · exact h it hmem
        · exact le_max_left 1 _
    | clear =>
      intro it hit
      simp [applyOp, clearCart, saveCart] at hit
  refine ⟨?_, ?_, ?_, ?_⟩
  · have hall : ∀ (ops : List Op) (st : CartState),
        (∀ it ∈ st.cart, 1 ≤ it.quantity) →
        ∀ it ∈ (applyOps ops st).cart, 1 ≤ it.quantity := by
      intro ops
      induction ops with
      | nil => intro st h; exact h
      | cons op rest ih =>
        intro st h
        exact ih (applyOp op st) (hstep op st h)
    intro ops
    exact hall ops emptyState (by intro it hit; simp [emptyState] at hit)
  · intro st id d
    simp only [updateQuantity]
    cases hf : st.cart.find? (fun c => c.id == id) with
    | none => rfl
    | some ex =>
      simp only [saveCart]
      exact map_id_updateFirst (fun c => c.id == id)
        (fun c => { c with quantity := max 1 (c.quantity + d) })
        (fun y => rfl) st.cart
  · intro st p v
    simp only [addItem]
    cases hf : st.cart.find? (fun c => c.id == generateId p.title v) with
    | some ex =>
      by_cases hg : stockGate p.stock ex.quantity
      · exact ⟨[], by simp [hg]⟩
      · refine ⟨[], ?_⟩
        simp only [hg, Bool.false_eq_true, if_false, saveCart, List.append_nil]
        exact map_id_updateFirst (fun c => c.id == generateId p.title v)
          (fun c => { c with quantity := c.quantity + 1 })
          (fun y => rfl) st.cart
    | none =>
      exact ⟨[(newLine p v).id], by simp [saveCart]⟩
  · intro st id c hc
    simp only [removeItem, saveCart] at hc
    have := List.of_mem_filter hc
    simpa using this

/-- Product used in the C5 witness. -/
def printProduct : Product :=
  { title := "Print".data, price := some 8, image := none, stock := none,
    fulfillment := none }

/-- Witness for C5 at a concrete input: the line created by a single add
of `printProduct` has quantity at least 1. -/
theorem c5_quantity_at_least_one_witness :
    1 ≤ (newLine printProduct []).quantity :=
  c5_quantity_at_least_one.1 [Op.add printProduct []] (newLine printProduct [])
    (by simp [applyOps, applyOp, addItem, emptyState, saveCart])

/-- Witness for C6 at a concrete input. -/
theorem c6_storage_mirrors_cart_witness :
    (applyOp .clear ⟨[], some []⟩).storage = some (applyOp .clear ⟨[], some []⟩).cart :=
  c6_storage_mirrors_cart.1 .clear ⟨[], some []⟩ rfl

/-- **C10.** If an id matches no line item of the cart, `updateQuantity`
with any delta is a complete no-op: the returned state (in-memory list and
persisted storage alike) is the input state. -/
theorem c10_update_absent_id_noop (st : CartState) (id : List Char) (delta : ℤ)
    (h : ∀ c ∈ st.cart, c.id ≠ id) :
    updateQuantity id delta st = st := by
  have hf : st.cart.find? (fun c => c.id == id) = none :=
    List.find?_eq_none.mpr (fun c hc => by
      simp only [beq_iff_eq]
      exact h c hc)
  simp [updateQuantity, hf]

/-- **C1 (amended).** Derived ids coincide for titles and variants
differing only in case or in non-alphanumeric characters (pointwise
`charEquiv`); and adding twice with the same (or id-equivalent) product
title and variant, starting from the empty cart, yields a single line item
with quantity 2 — *provided* the second product's declared stock is not a
truthy number ≤ 1, in which case the stock guard rejects the second add
(see the counterexample). -/
theorem c1_double_add_merges :
    (∀ t1 t2 v1 v2 : List Char, List.Forall₂ charEquiv t1 t2 →
      List.Forall₂ charEquiv v1 v2 → generateId t1 v1 = generateId t2 v2)
    ∧ (∀ (p q : Product) (v w : List Char),
        generateId q.title w = generateId p.title v →
        stockGate q.stock 1 = false →
        ((addItem q w (addItem p v emptyState).1).1).cart.map LineItem.quantity = [2]
        ∧ ((addItem q w (addItem p v emptyState).1).1).cart.length = 1) := by
  constructor
  · intro t1 t2 v1 v2 ht hv
    exact generateId_congr ht hv
  · intro p q v w hid hgate
    have h1 : (addItem p v emptyState).1
        = ⟨[newLine p v], some [newLine p v]⟩ := by
      simp [addItem, emptyState, saveCart]
    rw [h1]
    have hfind : List.find? (fun c => c.id == generateId q.title w) [newLine p v]
        = some (newLine p v) := by
      simp [List.find?, newLine, hid]
    have hq1 : (newLine p v).quantity = 1 := rfl
    constructor <;>
      simp [addItem, hfind, hq1, hgate, updateFirst, saveCart, newLine, hid]

/-- Product with a declared stock of `1` used to refute C1 as stated. -/
def onesieProduct : Product :=
  { title := "Onesie".data, price := some 20, image := none, stock := some 1,
    fulfillment := none }

/-- **C1 counterexample.** For `onesieProduct` (declared stock `1`) the
claim fails: the second add with the same title and variant does not merge
to quantity 2 — it is rejected by the stock guard (`1 >= 1`), leaving the
single line at quantity 1. -/
theorem c1_double_add_merges_counterexample :
    onesieProduct.stock = some 1
    ∧ ((addItem onesieProduct [] (addItem onesieProduct [] emptyState).1).1).cart.map
        LineItem.quantity = [1] := by
  refine ⟨rfl, rfl⟩

/-- Product titled `"A  B!"` used in the C1 witness. -/
def shirtProductA : Product :=
  { title := "A  B!".data, price := some 15, image := none, stock := none,
    fulfillment := none }

/-- Product titled `"a,b?"` — differing from `"A  B!"` only in case and in
non-alphanumeric characters — used in the C1 witness. -/
def shirtProductB : Product :=
  { title := "a,b?".data, price := some 15, image := none, stock := none,
    fulfillment := none }

/-- Witness for C1 (amended) at a concrete input: adding `"A  B!"` then
`"a,b?"` (ids both `"a-b-"`) merges into one line of quantity 2. -/
theorem c1_double_add_merges_witness :
    ((addItem shirtProductB [] (addItem shirtProductA [] emptyState).1).1).cart.map
      LineItem.quantity = [2] :=
  (c1_double_add_merges.2 shirtProductA shirtProductB [] [] (by decide) rfl).1

/-- **C3 (amended).** For every product with a declared *non-zero* numeric
stock and every cart containing a line for that product+variant whose
quantity is at or above the stock, `addItem` is rejected with the
user-visible `'warning'` toast and returns the state unchanged (the
function returns before saving). -/
theorem c3_stock_limit_rejects (st : CartState) (p : Product) (v : List Char)
    (s : ℤ) (ex : LineItem) (hs : p.stock = some s) (hnz : s ≠ 0)
    (hf : st.cart.find? (fun c => c.id == generateId p.title v) = some ex)
    (hq : s ≤ ex.quantity) :
    addItem p v st = (st, [stockToast s]) := by
  have hg : stockGate (some s) ex.quantity = true := by
    simp [stockGate, hnz, hq]
  simp [addItem, hf, hs, hg]

/-- Product with a declared stock of `0` used to refute C3 as stated. -/
def teaProduct : Product :=
  { title := "Tea".data, price := some 4, image := none, stock := some 0,
    fulfillment := none }

/-- The cart line produced by adding `teaProduct` once. -/
def teaLine : LineItem := newLine teaProduct []

/-- **C3 counterexample.** `teaProduct` declares the numeric stock `0` and
the cart already holds its line with quantity `1 ≥ 0` — at or above the
stock — yet `addItem` is *not* rejected: `0` is falsy, so the guard
`product.stock && existing.quantity >= product.stock` is skipped and the
quantity is incremented to `2` with the ordinary success toast. -/
theorem c3_stock_limit_rejects_counterexample :
    teaProduct.stock = some 0
    ∧ (0 : ℤ) ≤ teaLine.quantity
    ∧ ((addItem teaProduct [] ⟨[teaLine], some [teaLine]⟩).1).cart.map
        LineItem.quantity = [2]
    ∧ (addItem teaProduct [] ⟨[teaLine], some [teaLine]⟩).2 = [addedToast] := by
  refine ⟨rfl, by decide, ?_, ?_⟩ <;> rfl

/-- Product with a declared stock of `1` used in the C3 witness. -/
def mugProduct : Product :=
  { title := "Mug".data, price := some 12, image := none, stock := some 1,
    fulfillment := none }

/-- The cart line produced by adding `mugProduct` once. -/
def mugLine : LineItem := newLine mugProduct []

/-- Witness for C3 (amended) at a concrete input. -/
theorem c3_stock_limit_rejects_witness :
    addItem mugProduct [] ⟨[mugLine], some [mugLine]⟩
      = (⟨[mugLine], some [mugLine]⟩, [stockToast 1]) :=
  c3_stock_limit_rejects _ _ _ 1 mugLine rfl (by decide) rfl (by decide)

/-- **C4 (amended).** Stock at or below `0` makes a product unavailable
only through the shop UI: `buildCard` marks it sold out and renders the
add-to-cart button `disabled`.  The cart's own `addItem` does not gate new
lines on stock at all — with no matching line it appends a fresh line
regardless of the stock value — and it rejects an increment only when the
stock number is truthy, so a *negative* stock rejects increments while a
stock of exactly `0` does not (see the counterexample). -/
theorem c4_soldout_gating :
    (∀ (p : Product) (n : ℤ), p.stock = some n → n ≤ 0 → soldOut p = true)
    ∧ (∀ (st : CartState) (p : Product) (v : List Char),
        st.cart.find? (fun c => c.id == generateId p.title v) = none →
        ((addItem p v st).1).cart = st.cart ++ [newLine p v])
    ∧ (∀ (st : CartState) (p : Product) (v : List Char) (n : ℤ) (ex : LineItem),
        p.stock = some n → n < 0 →
        st.cart.find? (fun c => c.id == generateId p.title v) = some ex →
        0 ≤ ex.quantity →
        addItem p v st = (st, [stockToast n])) := by
  refine ⟨?_, ?_, ?_⟩
  · intro p n hs hn
    simp [soldOut, hs, hn]
  · intro st p v hf
    simp [addItem, hf, saveCart]
  · intro st p v n ex hs hn hf hq
    have hg : stockGate (some n) ex.quantity = true := by
      have hle : n ≤ ex.quantity := le_trans (le_of_lt hn) hq
      have hnz : n ≠ 0 := ne_of_lt hn
      simp [stockGate, hle, hnz]
    simp [addItem, hf, hs, hg]

/-- Product with a declared stock of `0` used to refute C4 as stated. -/
def posterProduct : Product :=
  { title := "Poster".data, price := some 10, image := none, stock := some 0,
    fulfillment := none }

/-- **C4 counterexample.** `posterProduct`'s stock field is the number
`0 ≤ 0`, yet calling the cart's add operation on the empty cart *does*
create a new line: `addItem` never consults stock when appending. -/
theorem c4_soldout_gating_counterexample :
    posterProduct.stock = some 0
    ∧ emptyState.cart.length = 0
    ∧ ((addItem posterProduct [] emptyState).1).cart.length = 1 := by
  refine ⟨rfl, rfl, rfl⟩

/-- Witness for C4 (amended) at concrete inputs. -/
theorem c4_soldout_gating_witness :
    soldOut { title := "Zine".data, price := some 3, image := none,
              stock := some (-2), fulfillment := none } = true
    ∧ ((addItem { title := "Zine".data, price := some 3, image := none,
                  stock := some (-2), fulfillment := none } [] emptyState).1).cart
        = [] ++ [newLine { title := "Zine".data, price := some 3, image := none,
                           stock := some (-2), fulfillment := none } []] :=
  ⟨c4_soldout_gating.1 _ (-2) rfl (by decide),
   c4_soldout_gating.2.1 emptyState _ [] rfl⟩

/-- **C7 (amended).** `loadCart` is a total function (the `try`/`catch`
means no stored value makes page start throw).  Corrupt JSON, unavailable
storage and an absent key all yield the empty array, as does any parsed
*falsy* value — but a successfully parsed *truthy* value is returned
as-is even when it is not a line-item array (see the counterexample). -/
theorem c7_load_corrupt_empty :
    loadCart .corrupt = .arr []
    ∧ loadCart .unavailable = .arr []
    ∧ loadCart .absent = .arr []
    ∧ (∀ v, jsTruthy v = false → loadCart (.value v) = .arr [])
    ∧ (∀ v, jsTruthy v = true → loadCart (.value v) = v) := by
  refine ⟨rfl, rfl, rfl, ?_, ?_⟩ <;> intro v h <;> simp [loadCart, h]

/-- **C7 counterexample.** The persisted string `"42"` parses to the
number `42`, which is truthy, so `loadCart` returns it unchanged — not the
empty cart list — although it is not a line-item array (not an array at
all). -/
theorem c7_load_corrupt_empty_counterexample :
    loadCart (.value (.num 42)) = .num 42
    ∧ Json.isArr (.num 42) = false
    ∧ Json.num 42 ≠ Json.arr [] :=
  ⟨rfl, rfl, fun h => Json.noConfusion h⟩

/-- Witness for C7 (amended) at concrete inputs. -/
theorem c7_load_corrupt_empty_witness :
    loadCart (.value (.bool false)) = .arr []
    ∧ loadCart (.value (.arr [.null])) = .arr [.null] :=
  ⟨c7_load_corrupt_empty.2.2.2.1 _ rfl, c7_load_corrupt_empty.2.2.2.2 _ rfl⟩

/-- **C8.** For every search index and non-empty query, the overlay's
result list is exactly the entries with strictly positive weighted score
(title 10, category 5, tags 3, preview 1, by case-insensitive substring
containment): it is a permutation of the positive-scoring sublist, every
result scores positively (zero scorers are excluded entirely), it is
sorted by descending score, and ties keep their index order (the
per-score sublists coincide with those of the unsorted filtered list —
which, with sortedness, is exactly stability of the descending sort). -/
theorem c8_search_scoring (entries : List Entry) (query : List Char)
    (hq : query ≠ []) :
    List.Perm (searchFilter query entries)
      (entries.filter (fun e => decide (0 < searchScore (jsLower query) e)))
    ∧ (∀ e ∈ searchFilter query entries, 0 < searchScore (jsLower query) e)
    ∧ List.Pairwise
        (fun a b => searchScore (jsLower query) b ≤ searchScore (jsLower query) a)
        (searchFilter query entries)
    ∧ (∀ s : ℤ, (searchFilter query entries).filter
          (fun e => searchScore (jsLower query) e == s)
        = (entries.filter
            (fun e => decide (0 < searchScore (jsLower query) e))).filter
              (fun e => searchScore (jsLower query) e == s)) := by
  have hne : query.isEmpty = false := by
    cases query
    · exact absurd rfl hq
    · rfl
  have hres : searchFilter query entries
      = (sortDesc ((entries.map (fun e => (e, searchScore (jsLower query) e))).filter
          (fun pr => decide (0 < pr.2)))).map (fun pr => pr.1) := by
    simp [searchFilter, hne]
  have hpos := scored_filter entries (jsLower query)
  have hmem_snd : ∀ pr ∈ sortDesc ((entries.map
        (fun e => (e, searchScore (jsLower query) e))).filter
          (fun pr => decide (0 < pr.2))),
      pr.2 = searchScore (jsLower query) pr.1 := by
    intro pr hpr
    have h2 := (sortDesc_perm _).mem_iff.mp hpr
    rw [hpos] at h2
    rcases List.mem_map.mp h2 with ⟨e, _, rfl⟩
    rfl
  have hmem_pos : ∀ pr ∈ sortDesc ((entries.map
        (fun e => (e, searchScore (jsLower query) e))).filter
          (fun pr => decide (0 < pr.2))),
      0 < pr.2 := by
    intro pr hpr
    have h2 := (sortDesc_perm _).mem_iff.mp hpr
    have := (List.mem_filter.mp h2).2
    exact of_decide_eq_true this
  refine ⟨?_, ?_, ?_, ?_⟩
  · rw [hres]
    have h1 := (sortDesc_perm ((entries.map
        (fun e => (e, searchScore (jsLower query) e))).filter
          (fun pr => decide (0 < pr.2)))).map (fun pr : Entry × ℤ => pr.1)
    have h2 : (((entries.map (fun e => (e, searchScore (jsLower query) e))).filter
          (fun pr => decide (0 < pr.2))).map (fun pr : Entry × ℤ => pr.1))
        = entries.filter (fun e => decide (0 < searchScore (jsLower query) e)) := by
      rw [hpos]
      exact map_fst_pairs _ _
    exact h2 ▸ h1
  · intro e he
    rw [hres] at he
    rcases List.mem_map.mp he with ⟨pr, hpr, rfl⟩
    have := hmem_pos pr hpr
    rwa [hmem_snd pr hpr] at this
  · rw [hres]
    refine List.pairwise_map.mpr ?_
    refine List.Pairwise.imp_of_mem ?_ (pairwise_sortDesc _)
    intro a b ha hb hr
    rw [← hmem_snd a ha, ← hmem_snd b hb]
    exact hr
  · intro s
    rw [hres]
    rw [filter_map_shape (fun pr : Entry × ℤ => pr.1)
      (fun e => searchScore (jsLower query) e == s)]
    rw [List.filter_congr (fun pr hpr => by
      rw [← hmem_snd pr hpr] : ∀ pr ∈ sortDesc ((entries.map
        (fun e => (e, searchScore (jsLower query) e))).filter
          (fun pr => decide (0 < pr.2))),
        (searchScore (jsLower query) pr.1 == s) = (pr.2 == s))]
    rw [filter_sortDesc, hpos]
    rw [filter_map_shape (fun e => (e, searchScore (jsLower query) e))
      (fun pr => pr.2 == s)]
    exact map_fst_pairs _ _

/-- Search-index entry scoring 14 for the query `"hat"` (title, tags and
preview all contain it). -/
def hatEntry : Entry :=
  { title := "Red Hat".data, slug := [], preview := "a hat".data,
    tags := ["hat".data], category := "shop".data, icon := [], date := [] }

/-- Search-index entry scoring 1 for the query `"hat"` (only the preview
contains it). -/
def catEntry : Entry :=
  { title := "Cat".data, slug := [], preview := "hat trick".data,
    tags := [], category := [], icon := [], date := [] }

/-- Witness for C8 at a concrete input: querying `"hat"` over
`[catEntry, hatEntry]` returns a permutation of the positive-scoring
entries, sorted by descending score. -/
theorem c8_search_scoring_witness :
    List.Perm (searchFilter "hat".data [catEntry, hatEntry])
      ([catEntry, hatEntry].filter
        (fun e => decide (0 < searchScore (jsLower "hat".data) e)))
    ∧ List.Pairwise
        (fun a b => searchScore (jsLower "hat".data) b
          ≤ searchScore (jsLower "hat".data) a)
        (searchFilter "hat".data [catEntry, hatEntry]) :=
  ⟨(c8_search_scoring [catEntry, hatEntry] "hat".data (by decide)).1,
   (c8_search_scoring [catEntry, hatEntry] "hat".data (by decide)).2.2.1⟩

/-- **C9 (amended).** In the *Shop* lightbox, over a non-empty product
list of length `n`, ArrowRight at index `n-1` wraps to `0` and ArrowLeft
at index `0` wraps to `n-1`.  The *Gallery* lightbox, however, has no
next/previous navigation at all: its keydown handler recognises only
`Escape`, so arrow keys leave its state — in particular the shown item —
unchanged (see the counterexample). -/
theorem c9_lightbox_wraparound :
    (∀ s : ShopLb, s.hidden = false → 0 < s.listLen →
      s.index = (s.listLen : ℤ) - 1 → (shopKeydown .arrowRight s).index = 0)
    ∧ (∀ s : ShopLb, s.hidden = false → 0 < s.listLen →
      s.index = 0 → (shopKeydown .arrowLeft s).index = (s.listLen : ℤ) - 1)
    ∧ (∀ s : GalleryLb,
        galleryKeydown .arrowRight s = s ∧ galleryKeydown .arrowLeft s = s) := by
  refine ⟨?_, ?_, ?_⟩
  · intro s hh hn hi
    have hln : (s.listLen != 0) = true := by simpa using hn.ne'
    simp only [shopKeydown, hh, Bool.false_eq_true, if_false, hln, if_true, hi]
    have : (s.listLen : ℤ) - 1 + 1 = (s.listLen : ℤ) := by ring
    rw [this]
    exact Int.tmod_self
  · intro s hh hn hi
    have hln : (s.listLen != 0) = true := by simpa using hn.ne'
    simp only [shopKeydown, hh, Bool.false_eq_true, if_false, hln, if_true, hi]
    have h1 : (0 : ℤ) - 1 + (s.listLen : ℤ) = (s.listLen : ℤ) - 1 := by ring
    rw [h1]
    have h2 : (0 : ℤ) ≤ (s.listLen : ℤ) - 1 := by
      have := hn
      omega
    rw [Int.tmod_eq_emod h2 (by positivity)]
    exact Int.emod_eq_of_lt h2 (by omega)
  · intro s
    constructor <;> simp [galleryKeydown]

/-- Gallery item at index 0 of the two-item counterexample gallery. -/
def paintingItem : GalleryItem :=
  { src := "painting.jpg".data, title := "Painting".data, description := [] }

/-- Gallery item at index 1 (the last index) of the counterexample
gallery. -/
def sketchItem : GalleryItem :=
  { src := "sketch.jpg".data, title := "Sketch".data, description := [] }

/-- **C9 counterexample.** Take the two-item gallery
`[paintingItem, sketchItem]` with the lightbox open on the last item
(index 1).  The claim says pressing "next" moves to index 0, i.e. to
`paintingItem`; but gallery.js wires no ArrowRight handler, so the keydown
leaves the lightbox state unchanged and it still shows `sketchItem`. -/
theorem c9_lightbox_wraparound_counterexample :
    galleryKeydown .arrowRight { hidden := false, shown := some sketchItem }
      = { hidden := false, shown := some sketchItem }
    ∧ sketchItem ≠ paintingItem := by
  refine ⟨rfl, by decide⟩

/-- Witness for C9 (amended) at a concrete input: a five-product shop
lightbox at the last index wraps to 0 on ArrowRight. -/
theorem c9_lightbox_wraparound_witness :
    (shopKeydown .arrowRight { hidden := false, index := 4, listLen := 5 }).index = 0 :=
  c9_lightbox_wraparound.1 { hidden := false, index := 4, listLen := 5 }
    rfl (by decide) (by decide)

/-- Witness for C10 at a concrete input. -/
theorem c10_update_absent_id_noop_witness :
    updateQuantity "mug".data (-1)
        ⟨[{ id := "tee".data, title := "Tee".data, price := 5, image := [],
            quantity := 1, variant := [], fulfillment := "handmade".data }], none⟩
      = ⟨[{ id := "tee".data, title := "Tee".data, price := 5, image := [],
            quantity := 1, variant := [], fulfillment := "handmade".data }], none⟩ :=
  c10_update_absent_id_noop _ _ _ (by decide)

end Site
